import Mathlib

/-!
Verification of the resume-agent repository's core: the version-log store,
the replacement validator, the update/revert/tag/batch coordinators and the
generation-collaborator retry loop, shallowly embedded from the TypeScript
source (src/main.ts, src/groqClient.ts, src/types.ts).  Strings are
modelled as `List Char`; JavaScript string primitives (`includes`, `trim`,
`split(/\s+/)`, `parseInt`) are embedded faithfully below.
-/

namespace ResumeAgent

/-- Strings are modelled as lists of characters. -/
abbrev Str := List Char

/-- The JavaScript `\s` character class (also used by `String.prototype.trim`
and by `parseInt` for leading-whitespace skipping): space, tab, LF, VT, FF,
CR, NBSP, and the Unicode space separators, line/paragraph separators and
BOM. -/
def jsWhitespace (c : Char) : Bool :=
  c = ' ' || c = '\t' || c = '\n' || c.toNat = 11 || c.toNat = 12 ||
  c = '\r' || c.toNat = 160 || c.toNat = 5760 ||
  (8192 ≤ c.toNat && c.toNat ≤ 8202) ||
  c.toNat = 8232 || c.toNat = 8233 || c.toNat = 8239 || c.toNat = 8287 ||
  c.toNat = 12288 || c.toNat = 65279

/-- JavaScript `String.prototype.trim`: strip `\s` characters from both
ends. -/
def jsTrim (s : Str) : Str :=
  ((s.dropWhile jsWhitespace).reverse.dropWhile jsWhitespace).reverse

mutual

/-- Piece accumulator of the JavaScript `s.split(/\s+/)` splitter: `acc`
holds the (reversed) current piece; on a whitespace character the piece is
flushed and the whitespace run is skipped. -/
def jsSplitWsGo (acc : Str) : Str → List Str
  | [] => [acc.reverse]
  | c :: rest =>
    if jsWhitespace c then acc.reverse :: jsSplitWsSkip rest
    else jsSplitWsGo (c :: acc) rest

/-- Whitespace-run skipper of the splitter; a run ending the string yields
the trailing empty piece JavaScript produces. -/
def jsSplitWsSkip : Str → List Str
  | [] => [[]]
  | c :: rest =>
    if jsWhitespace c then jsSplitWsSkip rest
    else jsSplitWsGo [c] rest

end

/-- The array produced by JavaScript `s.split(/\s+/)`: one piece per maximal
whitespace run boundary, including the empty leading/trailing pieces
JavaScript produces when the string starts or ends with whitespace. -/
def jsSplitWs (s : Str) : List Str := jsSplitWsGo [] s

/-- The count `s.split(/\s+/).length`, the validator's whitespace-token count. -/
def splitWsCount (s : Str) : Nat := (jsSplitWs s).length

/-- Does `hay` start with `sub`? (helper for the substring check). -/
def strStartsWith : Str → Str → Bool
  | _, [] => true
  | [], _ :: _ => false
  | c :: hay, d :: sub => c = d && strStartsWith hay sub

/-- Does `sub` occur contiguously anywhere in `hay`? (helper for
`jsIncludes`). -/
def strOccurs : Str → Str → Bool
  | [], sub => sub.isEmpty
  | c :: hay, sub => strStartsWith (c :: hay) sub || strOccurs hay sub

/-- JavaScript `hay.includes(sub)`: `sub` occurs as a contiguous,
case-sensitive substring of `hay`. -/
def jsIncludes (hay sub : Str) : Bool := strOccurs hay sub

/-- Numeric value of the leading decimal-digit run, or `none` when the run
is empty (in which case JavaScript `parseInt` returns `NaN`). -/
def parseDigits (l : Str) : Option Nat :=
  let ds := l.takeWhile (fun c => c.isDigit)
  if ds.isEmpty then none
  else some (ds.foldl (fun a c => a * 10 + (c.toNat - 48)) 0)

/-- Sign handling of `parseInt` after whitespace stripping. -/
def jsParseIntAux : Str → Option Int
  | '-' :: rest => (parseDigits rest).map (fun n => -(n : Int))
  | '+' :: rest => (parseDigits rest).map (fun n => (n : Int))
  | t => (parseDigits t).map (fun n => (n : Int))

/-- JavaScript `parseInt(s, 10)`: skip leading whitespace, optional sign,
then the longest leading digit run; `none` models `NaN`. -/
def jsParseInt (s : Str) : Option Int :=
  jsParseIntAux (s.dropWhile jsWhitespace)

/-! ## Data model (src/types.ts) -/

/-- Google Drive revision metadata (src/types.ts `Revision`). -/
structure Revision where
  id : Str
  modifiedTime : Str
  mimeType : Str
deriving DecidableEq, Repr

/-- Local version log entry stored in resume_versions.json
(src/types.ts `VersionLogEntry`). -/
structure VersionLogEntry where
  revisionId : Str
  timestamp : Str
  jobTitle : Option Str := none
  company : Option Str := none
  jobUrl : Option Str := none
  changes : List Str
  isRevert : Bool
deriving DecidableEq, Repr

/-- One candidate replacement from the generation collaborator
(src/groqClient.ts `AlignmentSchema` item). -/
structure Suggestion where
  original : Str
  replacement : Str
  jd_alignment : Option Str := none
deriving DecidableEq, Repr

/-- Word replacement pair handed to the document layer
(src/groqClient.ts `ReplacementItem`). -/
structure ReplacementItem where
  original : Str
  replacement : Str
deriving DecidableEq, Repr

/-- Result of `getResumeReplacements` (src/groqClient.ts
`ResumeUpdateResult`). -/
structure ResumeUpdateResult where
  replacements : List ReplacementItem
  changes : List Str
deriving DecidableEq, Repr

/-! ## ReplacementValidator (src/groqClient.ts, getResumeReplacements) -/

/-- The word-count bound used by the validator
(src/groqClient.ts line 305: `Math.abs(origWords - replWords) > 5`). -/
def wordDeltaBound : Nat := 5

/-- The per-candidate filter body of `getResumeReplacements`
(src/groqClient.ts lines 290-311): reject when `original` is not found in
the resume text, when trimmed `original` equals trimmed `replacement`, or
when the whitespace-token counts differ by more than `wordDeltaBound`. -/
def replacementFilter (resumeText : Str) (r : Suggestion) : Bool :=
  if !(jsIncludes resumeText r.original) then false
  else if jsTrim r.original = jsTrim r.replacement then false
  else if (wordDeltaBound : Int) <
      ((splitWsCount r.original : Int) - (splitWsCount r.replacement : Int)).natAbs then false
  else true

/-- The `validReplacements` list of src/groqClient.ts: the accepted candidate set,
`suggestions.replacements.filter(...)`. -/
def validReplacements (resumeText : Str) (candidates : List Suggestion) : List Suggestion :=
  candidates.filter (replacementFilter resumeText)

/-! ## Generation-collaborator retry loop
(src/groqClient.ts, getAlignmentSuggestions, lines 200-266) -/

/-- Parsed and schema-validated collaborator response
(src/groqClient.ts `AlignmentResponse`). -/
structure AlignmentResponse where
  replacements : List Suggestion
  summary : List Str
deriving DecidableEq, Repr

/-- Outcome of one attempt of the `axios.post` + decode + schema-validate
block inside the retry loop: `ok` when everything succeeded, `apiFailure`
when axios threw with an HTTP error response attached (authentication,
quota, malformed request — status and service message recorded), `failure`
for every other thrown error (network errors without a response,
`JSON.parse` failures, schema failures), carrying the error message. -/
inductive GroqCallOutcome
  | ok (v : AlignmentResponse)
  | apiFailure (status : Nat) (msg : Str)
  | failure (msg : Str)
deriving DecidableEq, Repr

/-- The `maxRetries` bound of src/groqClient.ts (line 205). -/
def maxRetries : Nat := 3

/-- The retry criterion of src/groqClient.ts line 255:
`lastError.message.includes('JSON') || lastError.message.includes('parse')`. -/
def isRetryableMessage (m : Str) : Bool :=
  jsIncludes m (("JSON").data) || jsIncludes m (("parse").data)

/-- The message of the error re-thrown for an axios error carrying an HTTP
response (src/groqClient.ts line 250):
`Groq API Error ${status}: ${message}`. -/
def groqApiErrorMsg (status : Nat) (msg : Str) : Str :=
  (("Groq API Error ").data) ++ Nat.toDigits 10 status ++ ((": ").data) ++ msg

/-- The `for (attempt = 1; attempt <= maxRetries; attempt++)` loop of
`getAlignmentSuggestions`: `attempt` is the current attempt number, the
second argument the remaining loop iterations, the third the saved
`lastError` message.  A successful attempt returns; an axios error with a
response throws the Groq-API error immediately; any other error is retried
only when `attempt < maxRetries` and its message matches the retry
criterion, else thrown.  Also returns the number of the attempt on which
the loop stopped. -/
def runAlignmentAttempts (env : Nat → GroqCallOutcome) :
    Nat → Nat → Option Str → Except Str AlignmentResponse × Nat
  | attempt, 0, lastErr =>
    (.error (lastErr.getD (("Failed to get alignment suggestions").data)), attempt - 1)
  | attempt, fuel + 1, _lastErr =>
    match env attempt with
    | .ok v => (.ok v, attempt)
    | .apiFailure st m => (.error (groqApiErrorMsg st m), attempt)
    | .failure m =>
      if attempt < maxRetries ∧ isRetryableMessage m = true then
        runAlignmentAttempts env (attempt + 1) fuel (some m)
      else (.error m, attempt)

/-- The function `getAlignmentSuggestions`, abstracted over the per-attempt outcome of
the external call: the result, paired with the attempt number on which the
run stopped. -/
def getAlignmentSuggestions (env : Nat → GroqCallOutcome) :
    Except Str AlignmentResponse × Nat :=
  runAlignmentAttempts env 1 maxRetries none

/-- Does this attempt outcome get retried by the loop (ignoring the
attempt bound): a thrown error, not an API error response, whose message
matches the retry criterion? -/
def retryableOutcome : GroqCallOutcome → Bool
  | .failure m => isRetryableMessage m
  | _ => false

/-! ## Version log persistence (src/main.ts lines 18-51)

`writeVersionLog` serializes the whole entry sequence with
`JSON.stringify(entries, null, 2) + '\n'` and performs one direct
`writeFileSync` to `resume_versions.json`.  The serializer and a small
file-system trace model are embedded so that atomicity of the write can be
stated. -/

/-- The `VERSION_LOG_FILE` constant of src/main.ts line 18. -/
def logFileName : Str := ("resume_versions.json").data

/-- Lower-case hexadecimal digit, for JSON control-character escapes. -/
def hexDigit (n : Nat) : Char :=
  if n < 10 then Char.ofNat (48 + n) else Char.ofNat (87 + n)

/-- The `JSON.stringify` escaping of a single character inside a string
literal. -/
def jsonEscapeChar (c : Char) : Str :=
  if c = '"' then ['\\', '"']
  else if c = '\\' then ['\\', '\\']
  else if c = '\n' then ['\\', 'n']
  else if c = '\r' then ['\\', 'r']
  else if c = '\t' then ['\\', 't']
  else if c.toNat = 8 then ['\\', 'b']
  else if c.toNat = 12 then ['\\', 'f']
  else if c.toNat < 32 then
    ['\\', 'u', '0', '0', hexDigit (c.toNat / 16), hexDigit (c.toNat % 16)]
  else [c]

/-- A JSON string literal with quotes and escapes. -/
def jsonQuote (s : Str) : Str := '"' :: ((s.map jsonEscapeChar).flatten ++ ['"'])

/-- Indentation produced by `JSON.stringify(..., null, 2)` at nesting
depth `d`. -/
def indentStr (d : Nat) : Str := List.replicate (2 * d) ' '

/-- A JSON array at nesting depth `d` whose elements are already
serialized, laid out as `JSON.stringify(..., null, 2)` lays it out. -/
def jsonArray (d : Nat) (items : List Str) : Str :=
  if items.isEmpty then ['[', ']']
  else
    ['[', '\n'] ++
      (List.intercalate ([',', '\n']) (items.map (fun it => indentStr (d + 1) ++ it))) ++
      ['\n'] ++ indentStr d ++ [']']

/-- A JSON object at nesting depth `d` from already-serialized
key/value pairs, laid out as `JSON.stringify(..., null, 2)` lays it out. -/
def jsonObject (d : Nat) (fields : List (Str × Str)) : Str :=
  if fields.isEmpty then [Char.ofNat 123, Char.ofNat 125]
  else
    [Char.ofNat 123, '\n'] ++
      (List.intercalate ([',', '\n'])
        (fields.map (fun f => indentStr (d + 1) ++ jsonQuote f.1 ++ [':', ' '] ++ f.2))) ++
      ['\n'] ++ indentStr d ++ [Char.ofNat 125]

/-- The key/value pairs `JSON.stringify` emits for one `VersionLogEntry`,
in the insertion order of the object literal built by `performUpdate`
(src/main.ts lines 376-384); `undefined` optional fields are omitted, as
`JSON.stringify` omits them.  Entries built by `handleRevert` carry no
metadata fields and so serialize identically under this order. -/
def entryFields (e : VersionLogEntry) : List (Str × Str) :=
  [((("revisionId").data), jsonQuote e.revisionId),
   ((("timestamp").data), jsonQuote e.timestamp)] ++
  (match e.company with
   | some v => [((("company").data), jsonQuote v)]
   | none => []) ++
  (match e.jobTitle with
   | some v => [((("jobTitle").data), jsonQuote v)]
   | none => []) ++
  (match e.jobUrl with
   | some v => [((("jobUrl").data), jsonQuote v)]
   | none => []) ++
  [((("changes").data), jsonArray 2 (e.changes.map jsonQuote)),
   ((("isRevert").data), if e.isRevert then ("true").data else ("false").data)]

/-- One serialized log entry (an object at depth 1 inside the top-level
array). -/
def serializeEntry (e : VersionLogEntry) : Str := jsonObject 1 (entryFields e)

/-- The string `JSON.stringify(entries, null, 2) + '\n'`, the exact byte content
`writeVersionLog` hands to `writeFileSync` (src/main.ts line 41). -/
def serializeVersionLog (entries : List VersionLogEntry) : Str :=
  jsonArray 0 (entries.map serializeEntry) ++ ['\n']

/-- A file-system operation: a (non-atomic) whole-file write, or an atomic
rename. -/
inductive FsOp
  | write (path content : Str)
  | rename (src dst : Str)
deriving DecidableEq, Repr

/-- File-system state: an association list from path to content; the first
binding for a path wins. -/
abbrev FsState := List (Str × Str)

/-- Content stored at `p`. -/
def fsGet (p : Str) (fs : FsState) : Option Str :=
  (fs.find? (fun kv => kv.1 = p)).map (fun kv => kv.2)

/-- Effect of one completed operation. -/
def runFsOp (fs : FsState) : FsOp → FsState
  | .write p c => (p, c) :: fs
  | .rename src dst =>
    match fsGet src fs with
    | some c => (dst, c) :: fs.filter (fun kv => kv.1 ≠ src)
    | none => fs

/-- Running a sequence of operations to completion. -/
def runFsOps (fs : FsState) (ops : List FsOp) : FsState :=
  ops.foldl runFsOp fs

/-- States observable if the process fails during one operation: a write
is not atomic — the file may hold any prefix of the new content (including
the empty truncated state), or be untouched; a rename is atomic — the
state is either fully before or fully after. -/
def fsOpCrashStates (fs : FsState) : FsOp → List FsState
  | .write p c =>
    fs :: (List.range (c.length + 1)).map (fun k => (p, c.take k) :: fs)
  | .rename src dst => [fs, runFsOp fs (.rename src dst)]

/-- States observable if the process fails somewhere during a sequence of
operations. -/
def crashStates (fs : FsState) : List FsOp → List FsState
  | [] => []
  | op :: rest => fsOpCrashStates fs op ++ crashStates (runFsOp fs op) rest

/-- The file-system operations `writeVersionLog(entries)` performs
(src/main.ts lines 40-42): a single direct `writeFileSync` of the full
serialized sequence to the log path — no temp file and no rename. -/
def writeVersionLogOps (entries : List VersionLogEntry) : List FsOp :=
  [.write logFileName (serializeVersionLog entries)]

/-- The function `appendVersionLog` (src/main.ts lines 47-51) at the entry-sequence
level: read the current sequence, push the entry, rewrite wholesale. -/
def appendVersionLog (log : List VersionLogEntry) (e : VersionLogEntry) :
    List VersionLogEntry :=
  log ++ [e]

/-! ## Selector resolution (src/main.ts: handleTag lines 690-702,
handleRevert lines 739-746, handleExport lines 796-803)

All three handlers resolve their `<index|revisionId>` token with the same
code: `parseInt` first, and if the parse is a number in `[0, log.length)`
the entry at that index is taken; only otherwise is an exact `revisionId`
lookup attempted. -/

/-- Token resolution to an entry, as in handleRevert/handleExport. -/
def selectEntry (tok : Str) (log : List VersionLogEntry) : Option VersionLogEntry :=
  match jsParseInt tok with
  | some i =>
    if 0 ≤ i ∧ i < (log.length : Int) then log[i.toNat]?
    else log.find? (fun e => e.revisionId = tok)
  | none => log.find? (fun e => e.revisionId = tok)

/-- Token resolution to an index, as in handleTag (which records
`targetIndex` via the same index-first logic, using `findIndex` for the
revisionId fallback). -/
def selectIndex (tok : Str) (log : List VersionLogEntry) : Option Nat :=
  match jsParseInt tok with
  | some i =>
    if 0 ≤ i ∧ i < (log.length : Int) then some i.toNat
    else log.findIdx? (fun e => e.revisionId = tok)
  | none => log.findIdx? (fun e => e.revisionId = tok)

/-- handleExport's target resolution (src/main.ts lines 796-803) — the
same token resolution; the export itself only reads the entry. -/
def exportTargetEntry (tok : Str) (log : List VersionLogEntry) :
    Option VersionLogEntry :=
  selectEntry tok log

/-! ## handleTag (src/main.ts lines 664-722) -/

/-- Failure exits of `handleTag`: missing flags (usage error) or an
unresolved selector (`NotFoundError`); both call `process.exit(1)` before
any write. -/
inductive TagError
  | usage
  | notFound
deriving DecidableEq, Repr

/-- The metadata mutation of the matched entry (src/main.ts lines
709-712): each of `company`/`jobTitle`/`jobUrl` is overwritten only when
the corresponding flag was supplied; nothing else on the entry is
touched. -/
def patchEntry (e : VersionLogEntry) (company jobTitle jobUrl : Option Str) :
    VersionLogEntry :=
  { e with
    company := match company with | some v => some v | none => e.company
    jobTitle := match jobTitle with | some v => some v | none => e.jobTitle
    jobUrl := match jobUrl with | some v => some v | none => e.jobUrl }

/-- The function `handleTag` on the stored entry sequence: returns the outcome and the
sequence as stored afterwards (unchanged on every failure path, since the
write happens only after a successful resolution). -/
def handleTag (tok : Str) (company jobTitle jobUrl : Option Str)
    (log : List VersionLogEntry) : Except TagError Unit × List VersionLogEntry :=
  if company = none ∧ jobTitle = none ∧ jobUrl = none then (.error .usage, log)
  else
    match selectIndex tok log with
    | none => (.error .notFound, log)
    | some i =>
      match log[i]? with
      | none => (.error .notFound, log)
      | some e => (.ok (), log.set i (patchEntry e company jobTitle jobUrl))

/-! ## performUpdate (src/main.ts lines 324-398) -/

deriving instance DecidableEq for Except

/-- Collaborator outcomes consumed by one `performUpdate` run, each a
fallible external call: `getResumeText`, `getResumeReplacements` (suggest +
validate), `applyWordReplacements`, `getRevisions`. -/
structure UpdateEnv where
  resumeText : Except Str Str
  resumeReplacements : Except Str ResumeUpdateResult
  applyReplacements : Except Str Nat
  revisions : Except Str (List Revision)
deriving DecidableEq, Repr

/-- Caller-supplied or auto-extracted metadata tags. -/
structure UpdateMetadata where
  company : Option Str := none
  jobTitle : Option Str := none
  jobUrl : Option Str := none
deriving DecidableEq, Repr

/-- The `{ success, revisionId?, error? }` result object of
`performUpdate`. -/
structure UpdateRunResult where
  success : Bool
  revisionId : Option Str := none
  error : Option Str := none
deriving DecidableEq, Repr

/-- Message of the TypeError thrown when `getRevisions` returns an empty
sequence and `revisions[revisions.length - 1].id` dereferences
`undefined`; it is caught by the surrounding try/catch like any other
error. -/
def undefinedRevisionError : Str :=
  ("TypeError: cannot read properties of undefined").data

/-- The function `performUpdate`: fetch text, suggest+validate, stop on dry run, apply,
fetch the new latest revision, append the log entry.  Every thrown error is
caught and returned as `{ success: false, error }`; the second component is
the version log as stored after the run. -/
def performUpdate (env : UpdateEnv) (metadata : UpdateMetadata) (dryRun : Bool)
    (log : List VersionLogEntry) : UpdateRunResult × List VersionLogEntry :=
  match env.resumeText with
  | .error e => (⟨false, none, some e⟩, log)
  | .ok _ =>
  match env.resumeReplacements with
  | .error e => (⟨false, none, some e⟩, log)
  | .ok result =>
  if dryRun then (⟨true, none, none⟩, log)
  else
  match env.applyReplacements with
  | .error e => (⟨false, none, some e⟩, log)
  | .ok _count =>
  match env.revisions with
  | .error e => (⟨false, none, some e⟩, log)
  | .ok revs =>
  match revs.getLast? with
  | none => (⟨false, none, some undefinedRevisionError⟩, log)
  | some latest =>
    (⟨true, some latest.id, none⟩,
     appendVersionLog log
       { revisionId := latest.id
         timestamp := latest.modifiedTime
         company := metadata.company
         jobTitle := metadata.jobTitle
         jobUrl := metadata.jobUrl
         changes := result.changes
         isRevert := false })

/-- Is an `Except` a success? -/
def exceptOk {ε α : Type} : Except ε α → Bool
  | .ok _ => true
  | .error _ => false

/-- Did the run reach the `applyWordReplacements` call and did that call
return successfully?  (It is reached exactly when the text fetch and the
suggestion call succeeded and the run is not a dry run.) -/
def applyCallSucceeded (env : UpdateEnv) (dryRun : Bool) : Bool :=
  exceptOk env.resumeText && exceptOk env.resumeReplacements &&
    !dryRun && exceptOk env.applyReplacements

/-! ## handleRevert (src/main.ts lines 727-775) -/

/-- Collaborator outcomes consumed by one `handleRevert` run:
`getRevisionContent`, `updateResumeText` (the overwrite), `getRevisions`. -/
structure RevertEnv where
  revisionContent : Except Str Str
  overwrite : Except Str Unit
  revisions : Except Str (List Revision)
deriving DecidableEq, Repr

/-- The single `changes` narrative of a revert entry
(src/main.ts line 769): `Reverted to revision ${targetEntry.revisionId}`. -/
def revertNarrative (rid : Str) : Str :=
  (("Reverted to revision ").data) ++ rid

/-- Message of the NotFoundError exit (`Version not found. ...`). -/
def notFoundError : Str :=
  ("Version not found. Use \x22list\x22 to see available versions.").data

/-- The function `handleRevert`: resolve the target (before any external call), fetch
its snapshot, overwrite the live document, fetch the new latest revision,
append a revert entry.  Returns the outcome (the new revision id on
success) and the log as stored afterwards. -/
def handleRevert (tok : Str) (env : RevertEnv) (log : List VersionLogEntry) :
    Except Str Str × List VersionLogEntry :=
  match selectEntry tok log with
  | none => (.error notFoundError, log)
  | some target =>
  match env.revisionContent with
  | .error e => (.error e, log)
  | .ok _content =>
  match env.overwrite with
  | .error e => (.error e, log)
  | .ok _ =>
  match env.revisions with
  | .error e => (.error e, log)
  | .ok revs =>
  match revs.getLast? with
  | none => (.error undefinedRevisionError, log)
  | some latest =>
    (.ok latest.id,
     appendVersionLog log
       { revisionId := latest.id
         timestamp := latest.modifiedTime
         changes := [revertNarrative target.revisionId]
         isRevert := true })

/-! ## Reconciliation (src/main.ts, handleList, lines 561-590) -/

/-- The `extraRevisions` list of handleList: revision ids of local entries
with no matching Drive revision, in log order. -/
def extraRevisions (allEntries : List VersionLogEntry)
    (driveRevisions : List Revision) : List Str :=
  (allEntries.filter
    (fun e => !(driveRevisions.any (fun r => r.id = e.revisionId)))).map
    (fun e => e.revisionId)

/-- The `missingRevisions` list of handleList: ids of Drive revisions with
no matching local entry, skipping any revision whose id equals the id of
the first (oldest) Drive revision. -/
def missingRevisions (allEntries : List VersionLogEntry)
    (driveRevisions : List Revision) : List Str :=
  (driveRevisions.filter
    (fun rev =>
      (allEntries.find? (fun e => e.revisionId = rev.id)).isNone &&
      (match driveRevisions.head? with
       | some h => !(rev.id = h.id : Bool)
       | none => true))).map (fun r => r.id)

/-! ## handleBatch (src/main.ts lines 418-526) -/

/-- Outcome of one batch item's try block: either
`fetchJobDescriptionFromUrl` threw, or the item ran through
`performUpdate`, which never throws (it catches internally and reports via
its result object). -/
inductive BatchItemOutcome
  | fetchFailure (msg : Str)
  | updateOutcome (r : UpdateRunResult)
deriving DecidableEq, Repr

/-- The `{ url, success, revisionId?, error? }` record pushed into
`results` for one item. -/
structure BatchItemResult where
  url : Str
  success : Bool
  revisionId : Option Str := none
  error : Option Str := none
deriving DecidableEq, Repr

/-- The record pushed for one item, from its outcome. -/
def batchItemResult (url : Str) : BatchItemOutcome → BatchItemResult
  | .fetchFailure m => ⟨url, false, none, some m⟩
  | .updateOutcome r => ⟨url, r.success, r.revisionId, r.error⟩

/-- The `results` array after the batch loop: one record per URL, in
order; a failure of item `i` is recorded and the loop continues with item
`i+1`. -/
def batchResults (urls : List Str) (env : Nat → BatchItemOutcome) :
    List BatchItemResult :=
  urls.enum.map (fun p => batchItemResult p.2 (env p.1))

/-- The process exit code chosen after the summary (src/main.ts lines
523-525): 1 when `failed > 0 && successful === 0`, else the normal exit
0. -/
def batchExit (results : List BatchItemResult) : Nat :=
  let successful := (results.filter (fun r => r.success)).length
  let failed := (results.filter (fun r => !r.success)).length
  if 0 < failed ∧ successful = 0 then 1 else 0

/-- The function `handleBatch` over an already-parsed URL list: empty URL lists exit
with an error before processing; otherwise every item is processed and the
exit code computed from the collected results. -/
def handleBatch (urls : List Str) (env : Nat → BatchItemOutcome) :
    List BatchItemResult × Nat :=
  if urls.isEmpty then ([], 1)
  else
    let rs := batchResults urls env
    (rs, batchExit rs)

/-! ## Concrete fixtures used by example theorems and witnesses -/

/-- A minimal log entry with a given revision id. -/
def mkEntry (rid : Str) : VersionLogEntry :=
  { revisionId := rid
    timestamp := ("2024-01-01T00:00:00.000Z").data
    changes := [(("initial alignment").data)]
    isRevert := false }

/-- A minimal Drive revision with a given id. -/
def mkRev (rid : Str) : Revision :=
  { id := rid
    modifiedTime := ("2024-01-02T00:00:00.000Z").data
    mimeType := ("application/vnd.google-apps.document").data }

/-- Local log for the reconciler example: entries for r1 and r2. -/
def c5Entries : List VersionLogEntry :=
  [mkEntry (("r1").data), mkEntry (("r2").data)]

/-- Remote revisions for the reconciler example: r0 (baseline, oldest)
through r3. -/
def c5Revs : List Revision :=
  [mkRev (("r0").data), mkRev (("r1").data),
   mkRev (("r2").data), mkRev (("r3").data)]

/-- Log for the selector-precedence example: the entry at index 0 has the
revisionId "2abc123", which also parses to the in-range integer 2. -/
def c10Log : List VersionLogEntry :=
  [mkEntry (("2abc123").data), mkEntry (("aaa").data), mkEntry (("bbb").data)]

/-- Update environment in which the apply call succeeds (changing zero
occurrences) but the subsequent `getRevisions` call fails. -/
def c1Env : UpdateEnv :=
  { resumeText := .ok (("resume text").data)
    resumeReplacements := .ok ⟨[], [(("tightened wording").data)]⟩
    applyReplacements := .ok 0
    revisions := .error (("network timeout fetching revisions").data) }

/-- A one-entry log used with `c1Env`. -/
def c1Log : List VersionLogEntry := [mkEntry (("r1").data)]

/-- Entry appended in the write-atomicity example. -/
def c3Entry : VersionLogEntry := mkEntry (("r1").data)

/-- File system holding the serialized empty log before the append. -/
def c3OldFs : FsState := [(logFileName, serializeVersionLog [])]

/-- Mid-write crash state of the append: the log file holds only the first
byte of the new serialization. -/
def c3CrashFs : FsState :=
  (logFileName, (serializeVersionLog [c3Entry]).take 1) :: c3OldFs

/-- A three-entry log for the revert example. -/
def c4Log : List VersionLogEntry :=
  [mkEntry (("rA").data), mkEntry (("rB").data), mkEntry (("rC").data)]

/-- Revert environment in which every collaborator call succeeds and the
overwrite leaves rD as the new latest revision. -/
def c4Env : RevertEnv :=
  { revisionContent := .ok (("old body").data)
    overwrite := .ok ()
    revisions := .ok [mkRev (("rA").data), mkRev (("rD").data)] }

/-- Two batch URLs. -/
def c8Urls : List Str :=
  [("https://a.example/j1").data, ("https://b.example/j2").data]

/-- Batch environment: the first item's scrape throws, the second item
succeeds. -/
def c8Env : Nat → BatchItemOutcome := fun i =>
  if i = 0 then .fetchFailure (("scrape failed").data)
  else .updateOutcome ⟨true, some (("r9").data), none⟩

/-- Generation-collaborator environment in which every attempt fails with
a decode/parse error. -/
def c9ParseEnv : Nat → GroqCallOutcome := fun k =>
  if k = 1 then .failure (("Unexpected token in JSON at position 0").data)
  else if k = 2 then .failure (("Failed to parse content").data)
  else .failure (("Unexpected end of JSON input").data)

/-! # Theorems -/

/-! ## Shared helper lemmas -/

/-- The validator's per-candidate filter, as a conjunction of its three
checks. -/
theorem replacementFilter_iff (T : Str) (r : Suggestion) :
    replacementFilter T r = true ↔
      jsIncludes T r.original = true ∧
      jsTrim r.original ≠ jsTrim r.replacement ∧
      ((splitWsCount r.original : Int) - (splitWsCount r.replacement : Int)).natAbs
        ≤ wordDeltaBound := by
  unfold replacementFilter
  split_ifs with h1 h2 h3
  · simp only [Bool.not_eq_true'] at h1
    simp [h1]
  · simp [h2]
  · have hgt : ¬ ((splitWsCount r.original : Int) - (splitWsCount r.replacement : Int)).natAbs
        ≤ wordDeltaBound := by
      rw [not_le]
      exact_mod_cast h3
    simp [hgt]
  · have hin : jsIncludes T r.original = true := by
      simpa using h1
    have hle : ((splitWsCount r.original : Int) - (splitWsCount r.replacement : Int)).natAbs
        ≤ wordDeltaBound := by
      have := not_lt.mp h3
      exact_mod_cast this
    simp [hin, h2, hle]

/-- Occurrence count of a value in a filtered list. -/
theorem count_filter_ite {α : Type} [DecidableEq α] (p : α → Bool) (a : α)
    (l : List α) :
    (l.filter p).count a = if p a = true then l.count a else 0 := by
  split_ifs with h
  · exact List.count_filter h
  · rw [List.count_eq_zero]
    intro hmem
    exact h (List.of_mem_filter hmem)

/-! ## Claim theorems -/

/-- C2: a candidate is in the accepted set of the ReplacementValidator
exactly when it was offered and its `original` is an exact, case-sensitive,
contiguous substring of the document text, its trimmed `original` differs
from its trimmed `replacement`, and the whitespace-token counts of
`original` and `replacement` differ by at most the bound
(`wordDeltaBound = 5`); every candidate violating one of the filters is
excluded. -/
theorem validator_accepted_conditions :
    ∀ (T : Str) (cands : List Suggestion) (r : Suggestion),
      r ∈ validReplacements T cands ↔
        r ∈ cands ∧ jsIncludes T r.original = true ∧
        jsTrim r.original ≠ jsTrim r.replacement ∧
        ((splitWsCount r.original : Int) - (splitWsCount r.replacement : Int)).natAbs
          ≤ wordDeltaBound := by
  intro T cands r
  rw [validReplacements, List.mem_filter, replacementFilter_iff]

/-- C7: the ReplacementValidator is an order-preserving per-candidate
filter: it is idempotent on the same `(T, candidates)` input, its output is
a sublist (hence in input order) of its input, it distributes over
concatenation (no candidate affects another's acceptance), and it keeps
every duplicate of an accepted candidate (no deduplication). -/
theorem validator_order_pointwise_idempotent :
    (∀ (T : Str) (cs : List Suggestion),
        validReplacements T (validReplacements T cs) = validReplacements T cs) ∧
    (∀ (T : Str) (cs : List Suggestion), (validReplacements T cs).Sublist cs) ∧
    (∀ (T : Str) (cs₁ cs₂ : List Suggestion),
        validReplacements T (cs₁ ++ cs₂) =
          validReplacements T cs₁ ++ validReplacements T cs₂) ∧
    (∀ (T : Str) (cs : List Suggestion) (r : Suggestion),
        (validReplacements T cs).count r =
          if replacementFilter T r = true then cs.count r else 0) := by
  refine ⟨?_, ?_, ?_, ?_⟩
  · intro T cs
    unfold validReplacements
    rw [List.filter_filter]
    simp
  · intro T cs
    exact List.filter_sublist cs
  · intro T cs₁ cs₂
    exact List.filter_append cs₁ cs₂
  · intro T cs r
    exact count_filter_ite (replacementFilter T) r cs

/-- C5: the reconciliation computed by handleList — `extra` is exactly the
set of local revisionIds with no matching remote Revision, `missing` is
exactly the set of remote Revision ids with no matching local entry other
than the oldest (baseline) revision's id, and on local ids {r1, r2} with
remote ids {r0, r1, r2, r3} (r0 oldest) it yields `extra = {}` and
`missing = {r3}`.  Both are pure functions of the two sequences and mutate
neither store. -/
theorem reconciler_missing_extra_spec :
    (∀ (entries : List VersionLogEntry) (revs : List Revision) (rid : Str),
        rid ∈ extraRevisions entries revs ↔
          (∃ e ∈ entries, e.revisionId = rid) ∧ ∀ r ∈ revs, r.id ≠ rid) ∧
    (∀ (entries : List VersionLogEntry) (revs : List Revision) (rid : Str),
        rid ∈ missingRevisions entries revs ↔
          ∃ rev ∈ revs, rev.id = rid ∧ (∀ e ∈ entries, e.revisionId ≠ rid) ∧
            ∀ h, revs.head? = some h → rid ≠ h.id) ∧
    (extraRevisions c5Entries c5Revs = [] ∧
      missingRevisions c5Entries c5Revs = [(("r3").data)]) := by
  refine ⟨?_, ?_, by decide⟩
  · intro entries revs rid
    simp only [extraRevisions, List.mem_map, List.mem_filter, Bool.not_eq_true',
      List.any_eq_false, decide_eq_false_iff_not, decide_eq_true_eq]
    constructor
    · rintro ⟨e, ⟨he, hnone⟩, hrid⟩
      subst hrid
      exact ⟨⟨e, he, rfl⟩, hnone⟩
    · rintro ⟨⟨e, he, hrid⟩, hall⟩
      subst hrid
      exact ⟨e, ⟨he, hall⟩, rfl⟩
  · intro entries revs rid
    simp only [missingRevisions, List.mem_map, List.mem_filter, Bool.and_eq_true,
      Option.isNone_iff_eq_none, List.find?_eq_none, decide_eq_true_eq,
      Bool.not_eq_true', decide_eq_false_iff_not]
    constructor
    · rintro ⟨rev, ⟨hrev, hnolocal, hhead⟩, hrid⟩
      subst hrid
      refine ⟨rev, hrev, rfl, hnolocal, ?_⟩
      intro h hh heq
      rw [hh] at hhead
      simp only [Bool.not_eq_true', decide_eq_false_iff_not] at hhead
      exact hhead heq
    · rintro ⟨rev, hrev, hrid, hnolocal, hhead⟩
      subst hrid
      refine ⟨rev, ⟨hrev, hnolocal, ?_⟩, rfl⟩
      cases hh : revs.head? with
      | none => simp
      | some h =>
        simp only [Bool.not_eq_true', decide_eq_false_iff_not]
        exact hhead h hh

/-- When `selectIndex` resolves, the index is in range. -/
theorem selectIndex_some_lt (tok : Str) (log : List VersionLogEntry) (i : Nat)
    (h : selectIndex tok log = some i) : i < log.length := by
  cases hp : jsParseInt tok with
  | none =>
    simp only [selectIndex, hp] at h
    exact (List.findIdx?_eq_some_iff_findIdx_eq.mp h).1
  | some j =>
    simp only [selectIndex, hp] at h
    split_ifs at h with hc
    · simp only [Option.some.injEq] at h
      omega
    · exact (List.findIdx?_eq_some_iff_findIdx_eq.mp h).1

/-- C10: selector resolution for the revert, tag and export operations —
if the token parses (via `parseInt`) to an integer in `[0, log length)`,
the entry at that index is selected, regardless of any revisionId match;
the revisionId lookup is used only when the parse fails or is out of
range; concretely, on a log whose entry 0 has revisionId "2abc123" and
which has 3 entries, the token "2abc123" parses to 2 and resolves to the
entry at index 2, not to entry 0. -/
theorem selector_index_precedence :
    (∀ (tok : Str) (log : List VersionLogEntry) (n : Nat),
        n < log.length → jsParseInt tok = some (n : Int) →
          selectEntry tok log = log[n]? ∧ selectIndex tok log = some n) ∧
    (∀ (tok : Str) (log : List VersionLogEntry),
        (∀ i : Int, jsParseInt tok = some i → i < 0 ∨ (log.length : Int) ≤ i) →
          selectEntry tok log = log.find? (fun e => e.revisionId = tok) ∧
          selectIndex tok log = log.findIdx? (fun e => e.revisionId = tok)) ∧
    (jsParseInt (("2abc123").data) = some 2 ∧
      selectEntry (("2abc123").data) c10Log = some (mkEntry (("bbb").data)) ∧
      c10Log.head? = some (mkEntry (("2abc123").data))) := by
  refine ⟨?_, ?_, by decide⟩
  · intro tok log n hn hp
    have hc : (0 : Int) ≤ (n : Int) ∧ (n : Int) < (log.length : Int) := by
      constructor
      · exact_mod_cast Nat.zero_le n
      · exact_mod_cast hn
    constructor
    · simp only [selectEntry, hp]
      rw [if_pos hc]
      simp
    · simp only [selectIndex, hp]
      rw [if_pos hc]
      simp
  · intro tok log hout
    cases hp : jsParseInt tok with
    | none =>
      constructor
      · simp only [selectEntry, hp]
      · simp only [selectIndex, hp]
    | some i =>
      have hni : ¬ ((0 : Int) ≤ i ∧ i < (log.length : Int)) := by
        rcases hout i hp with hlt | hge
        · intro hc
          omega
        · intro hc
          omega
      constructor
      · simp only [selectEntry, hp]
        rw [if_neg hni]
      · simp only [selectIndex, hp]
        rw [if_neg hni]

/-- Witness for C10: the token "1" parses to the in-range index 1 of
`c10Log` and resolves by index. -/
theorem selector_index_precedence_witness :
    selectEntry (("1").data) c10Log = c10Log[1]? ∧
    selectIndex (("1").data) c10Log = some 1 :=
  selector_index_precedence.1 (("1").data) c10Log 1 (by decide) (by decide)

/-- C6: when the tag operation's selector resolves to index `i`, the run
succeeds and rewrites only the `company`/`jobTitle`/`jobUrl` fields of
entry `i` (its `revisionId`, `timestamp`, `changes`, `isRevert` and every
other entry are unchanged); when the selector resolves to nothing, it
fails with the not-found error and the stored log is unchanged. -/
theorem tag_patches_only_metadata :
    ∀ (tok : Str) (company jobTitle jobUrl : Option Str)
      (log : List VersionLogEntry),
      (company ≠ none ∨ jobTitle ≠ none ∨ jobUrl ≠ none) →
      ((∀ i, selectIndex tok log = some i →
          ∃ e, log[i]? = some e ∧
            handleTag tok company jobTitle jobUrl log =
              (.ok (), log.set i (patchEntry e company jobTitle jobUrl)) ∧
            (patchEntry e company jobTitle jobUrl).revisionId = e.revisionId ∧
            (patchEntry e company jobTitle jobUrl).timestamp = e.timestamp ∧
            (patchEntry e company jobTitle jobUrl).changes = e.changes ∧
            (patchEntry e company jobTitle jobUrl).isRevert = e.isRevert ∧
            (log.set i (patchEntry e company jobTitle jobUrl)).length = log.length ∧
            (∀ k, k ≠ i →
              (log.set i (patchEntry e company jobTitle jobUrl))[k]? = log[k]?)) ∧
        (selectIndex tok log = none →
          handleTag tok company jobTitle jobUrl log = (.error .notFound, log))) := by
  intro tok company jobTitle jobUrl log hflag
  have hcond : ¬ (company = none ∧ jobTitle = none ∧ jobUrl = none) := by
    rcases hflag with h | h | h <;> tauto
  constructor
  · intro i hsel
    have hlt : i < log.length := selectIndex_some_lt tok log i hsel
    have hget : log[i]? = some (log.get ⟨i, hlt⟩) := by
      simp [List.getElem?_eq_getElem hlt]
    refine ⟨log.get ⟨i, hlt⟩, hget, ?_, rfl, rfl, rfl, rfl, List.length_set log i _, ?_⟩
    · simp only [handleTag, if_neg hcond, hsel, hget]
    · intro k hk
      exact List.getElem?_set_ne (fun h => hk h.symm)
  · intro hsel
    simp only [handleTag, if_neg hcond, hsel]

/-- Witness for C6: tagging entry 1 of `c10Log` with a company rewrites
only that entry's company field and leaves its other fields and the other
entries unchanged. -/
theorem tag_patches_only_metadata_witness :
    ∃ e, c10Log[1]? = some e ∧
      handleTag (("1").data) (some (("Acme").data)) none none c10Log =
        (.ok (), c10Log.set 1 (patchEntry e (some (("Acme").data)) none none)) ∧
      (patchEntry e (some (("Acme").data)) none none).revisionId = e.revisionId ∧
      (patchEntry e (some (("Acme").data)) none none).timestamp = e.timestamp ∧
      (patchEntry e (some (("Acme").data)) none none).changes = e.changes ∧
      (patchEntry e (some (("Acme").data)) none none).isRevert = e.isRevert ∧
      (c10Log.set 1 (patchEntry e (some (("Acme").data)) none none)).length =
        c10Log.length ∧
      (∀ k, k ≠ 1 →
        (c10Log.set 1 (patchEntry e (some (("Acme").data)) none none))[k]? =
          c10Log[k]?) :=
  (tag_patches_only_metadata (("1").data) (some (("Acme").data)) none none c10Log
    (Or.inl (Option.some_ne_none _))).1 1 (by decide)

/-- C4: a successful revert run appends exactly one entry at the end of
the log — with `isRevert = true`, whose `revisionId` is the id of the new
latest remote Revision left by the overwrite, and whose `changes` list is
the single narrative naming the target entry's own revisionId — and leaves
every existing entry unchanged. -/
theorem revert_appends_single_revert_entry :
    ∀ (tok : Str) (env : RevertEnv) (log : List VersionLogEntry) (rid : Str),
      (handleRevert tok env log).1 = .ok rid →
      ∃ target revs latest,
        selectEntry tok log = some target ∧
        env.revisions = .ok revs ∧ revs.getLast? = some latest ∧
        rid = latest.id ∧
        (handleRevert tok env log).2 =
          log ++ [{ revisionId := latest.id
                    timestamp := latest.modifiedTime
                    changes := [revertNarrative target.revisionId]
                    isRevert := true }] ∧
        (∀ k, k < log.length → ((handleRevert tok env log).2)[k]? = log[k]?) ∧
        ((handleRevert tok env log).2).length = log.length + 1 := by
  intro tok env log rid hok
  rcases env with ⟨rc, ow, rv⟩
  cases hsel : selectEntry tok log with
  | none =>
    simp only [handleRevert, hsel] at hok
    exact Except.noConfusion hok
  | some target =>
    cases rc with
    | error e =>
      simp only [handleRevert, hsel] at hok
      exact Except.noConfusion hok
    | ok content =>
      cases ow with
      | error e =>
        simp only [handleRevert, hsel] at hok
        exact Except.noConfusion hok
      | ok u =>
        cases rv with
        | error e =>
          simp only [handleRevert, hsel] at hok
          exact Except.noConfusion hok
        | ok revs =>
          cases hl : revs.getLast? with
          | none =>
            simp only [handleRevert, hsel, hl] at hok
            exact Except.noConfusion hok
          | some latest =>
            simp only [handleRevert, hsel, hl, Except.ok.injEq] at hok
            refine ⟨target, revs, latest, rfl, rfl, hl, hok.symm, ?_, ?_, ?_⟩
            · simp [handleRevert, hsel, hl, appendVersionLog]
            · intro k hk
              simp only [handleRevert, hsel, hl, appendVersionLog]
              rw [List.getElem?_append]
              exact if_pos hk
            · simp [handleRevert, hsel, hl, appendVersionLog]

/-- Witness for C4: reverting `c4Log` to entry 0 in `c4Env` succeeds and
appends the single revert entry. -/
theorem revert_appends_single_revert_entry_witness :
    ∃ target revs latest,
      selectEntry (("0").data) c4Log = some target ∧
      c4Env.revisions = .ok revs ∧ revs.getLast? = some latest ∧
      ("rD").data = latest.id ∧
      (handleRevert (("0").data) c4Env c4Log).2 =
        c4Log ++ [{ revisionId := latest.id
                    timestamp := latest.modifiedTime
                    changes := [revertNarrative target.revisionId]
                    isRevert := true }] ∧
      (∀ k, k < c4Log.length →
        ((handleRevert (("0").data) c4Env c4Log).2)[k]? = c4Log[k]?) ∧
      ((handleRevert (("0").data) c4Env c4Log).2).length = c4Log.length + 1 :=
  revert_appends_single_revert_entry (("0").data) c4Env c4Log (("rD").data)
    (by decide)

/-- Counterexample to C1 as stated: in `c1Env` the apply call is reached
and returns successfully (changing zero occurrences), but the subsequent
`getRevisions` call fails, so the run ends in failure and appends
nothing — the log entry is not appended "if and only if the apply call
returned successfully". -/
theorem update_append_iff_apply_cex :
    applyCallSucceeded c1Env false = true ∧
    (performUpdate c1Env ⟨none, none, none⟩ false c1Log).2 = c1Log ∧
    (performUpdate c1Env ⟨none, none, none⟩ false c1Log).1.success = false :=
  ⟨rfl, rfl, rfl⟩

/-- C1 (amended): a `performUpdate` run appends at most one entry, always
non-revert and carrying the caller metadata; an entry is appended exactly
when the apply call returned successfully *and* the subsequent
latest-revision fetch succeeded with a nonempty revision sequence; a
dry run appends nothing; a failed fetch, suggest or apply call appends
nothing (an append implies the run reported success). -/
theorem update_append_characterization :
    ∀ (env : UpdateEnv) (md : UpdateMetadata) (dryRun : Bool)
      (log : List VersionLogEntry),
      ((performUpdate env md dryRun log).2 = log ∨
        ∃ e, (performUpdate env md dryRun log).2 = log ++ [e] ∧
          e.isRevert = false ∧ e.company = md.company ∧
          e.jobTitle = md.jobTitle ∧ e.jobUrl = md.jobUrl) ∧
      ((performUpdate env md dryRun log).2 ≠ log ↔
        applyCallSucceeded env dryRun = true ∧
        ∃ revs latest, env.revisions = .ok revs ∧ revs.getLast? = some latest) ∧
      (dryRun = true → (performUpdate env md dryRun log).2 = log) ∧
      ((performUpdate env md dryRun log).2 ≠ log →
        (performUpdate env md dryRun log).1.success = true) := by
  intro env md dryRun log
  have happ : ∀ (e : VersionLogEntry), log ++ [e] ≠ log := by
    intro e h
    have hlen := congrArg List.length h
    simp at hlen
  rcases env with ⟨rt, rr, ar, rv⟩
  cases rt with
  | error e =>
    simp [performUpdate, applyCallSucceeded, exceptOk]
  | ok t =>
    cases rr with
    | error e =>
      simp [performUpdate, applyCallSucceeded, exceptOk]
    | ok result =>
      cases dryRun with
      | true =>
        simp [performUpdate, applyCallSucceeded, exceptOk]
      | false =>
        cases ar with
        | error e =>
          simp [performUpdate, applyCallSucceeded, exceptOk]
        | ok count =>
          cases rv with
          | error e =>
            simp [performUpdate, applyCallSucceeded, exceptOk]
          | ok revs =>
            cases hl : revs.getLast? with
            | none =>
              simp [performUpdate, applyCallSucceeded, exceptOk, hl]
            | some latest =>
              simp only [performUpdate, applyCallSucceeded, exceptOk, hl,
                appendVersionLog, Bool.and_self, Bool.not_false]
              refine ⟨Or.inr ⟨_, rfl, rfl, rfl, rfl, rfl⟩, ?_, ?_, ?_⟩
              · constructor
                · intro _
                  exact ⟨trivial, revs, latest, rfl, hl⟩
                · intro _
                  exact happ _
              · intro h
                exact absurd h (by simp)
              · intro _
                rfl

/-- Witness for C1 (amended): evaluating the characterization on `c1Env`,
where the apply succeeded but the revision fetch failed. -/
theorem update_append_characterization_witness :
    ((performUpdate c1Env ⟨none, none, none⟩ false c1Log).2 = c1Log ∨
      ∃ e, (performUpdate c1Env ⟨none, none, none⟩ false c1Log).2 = c1Log ++ [e] ∧
        e.isRevert = false ∧ e.company = none ∧
        e.jobTitle = none ∧ e.jobUrl = none) ∧
    ((performUpdate c1Env ⟨none, none, none⟩ false c1Log).2 ≠ c1Log ↔
      applyCallSucceeded c1Env false = true ∧
      ∃ revs latest, c1Env.revisions = .ok revs ∧ revs.getLast? = some latest) ∧
    (false = true → (performUpdate c1Env ⟨none, none, none⟩ false c1Log).2 = c1Log) ∧
    ((performUpdate c1Env ⟨none, none, none⟩ false c1Log).2 ≠ c1Log →
      (performUpdate c1Env ⟨none, none, none⟩ false c1Log).1.success = true) :=
  update_append_characterization c1Env ⟨none, none, none⟩ false c1Log

/-- C8: a non-empty batch run produces one result record per item, item
`i`'s record being determined by item `i`'s own outcome alone (so one
item's failure leaves the other items' processing intact), and the run
exits with the error status exactly when every item failed; any item's
success yields the success exit status. -/
theorem batch_isolates_failures :
    ∀ (urls : List Str) (env : Nat → BatchItemOutcome),
      urls ≠ [] →
        (handleBatch urls env).1.length = urls.length ∧
        (∀ i, ((handleBatch urls env).1)[i]? =
          (urls[i]?).map (fun u => batchItemResult u (env i))) ∧
        ((handleBatch urls env).2 = 1 ↔
          ∀ r ∈ (handleBatch urls env).1, r.success = false) ∧
        ((∃ r ∈ (handleBatch urls env).1, r.success = true) →
          (handleBatch urls env).2 = 0) := by
  intro urls env hne
  have hno : urls.isEmpty = false := by
    cases urls with
    | nil => exact absurd rfl hne
    | cons a l => rfl
  have hb1 : (handleBatch urls env).1 = batchResults urls env := by
    simp [handleBatch, hno]
  have hb2 : (handleBatch urls env).2 = batchExit (batchResults urls env) := by
    simp [handleBatch, hno]
  have hexit : batchExit (batchResults urls env) =
      if 0 < ((batchResults urls env).filter (fun r => !r.success)).length ∧
          ((batchResults urls env).filter (fun r => r.success)).length = 0
      then 1 else 0 := rfl
  rw [hb1, hb2, hexit]
  have hlen : (batchResults urls env).length = urls.length := by
    simp [batchResults, List.enum_length]
  have hpt : ∀ i, (batchResults urls env)[i]? =
      (urls[i]?).map (fun u => batchItemResult u (env i)) := by
    intro i
    simp only [batchResults, List.getElem?_map, List.getElem?_enum]
    cases urls[i]? with
    | none => rfl
    | some u => rfl
  refine ⟨hlen, hpt, ?_, ?_⟩
  · constructor
    · intro h1
      split_ifs at h1 with hc
      intro r hr
      rcases hc with ⟨_, hzero⟩
      have := List.filter_eq_nil_iff.mp (List.length_eq_zero.mp hzero) r hr
      simpa using this
    · intro hall
      have hfe : (batchResults urls env).filter (fun r => r.success) = [] := by
        rw [List.filter_eq_nil_iff]
        intro r hr
        simp [hall r hr]
      have hff : (batchResults urls env).filter (fun r => !r.success) =
          batchResults urls env := by
        rw [List.filter_eq_self]
        intro r hr
        simp [hall r hr]
      rw [if_pos]
      refine ⟨?_, ?_⟩
      · rw [hff]
        rw [List.length_pos]
        intro hnil
        rw [hnil] at hlen
        cases urls with
        | nil => exact hne rfl
        | cons a l => simp at hlen
      · rw [hfe]
        rfl
  · intro ⟨r, hr, hs⟩
    rw [if_neg]
    intro ⟨_, hzero⟩
    have := List.filter_eq_nil_iff.mp (List.length_eq_zero.mp hzero) r hr
    simp [hs] at this

/-- Witness for C8: in `c8Urls`/`c8Env` the first item's scrape fails, the
second succeeds, and the run exits with the success status. -/
theorem batch_isolates_failures_witness :
    (handleBatch c8Urls c8Env).1.length = c8Urls.length ∧
    (∀ i, ((handleBatch c8Urls c8Env).1)[i]? =
      (c8Urls[i]?).map (fun u => batchItemResult u (c8Env i))) ∧
    ((handleBatch c8Urls c8Env).2 = 1 ↔
      ∀ r ∈ (handleBatch c8Urls c8Env).1, r.success = false) ∧
    ((∃ r ∈ (handleBatch c8Urls c8Env).1, r.success = true) →
      (handleBatch c8Urls c8Env).2 = 0) :=
  batch_isolates_failures c8Urls c8Env (by decide)

/-- Full case tree of the three-attempt retry loop. -/
theorem getAlignment_unfold (env : Nat → GroqCallOutcome) :
    getAlignmentSuggestions env =
      match env 1 with
      | .ok v => (.ok v, 1)
      | .apiFailure st m => (.error (groqApiErrorMsg st m), 1)
      | .failure m1 =>
        if isRetryableMessage m1 = true then
          match env 2 with
          | .ok v => (.ok v, 2)
          | .apiFailure st m => (.error (groqApiErrorMsg st m), 2)
          | .failure m2 =>
            if isRetryableMessage m2 = true then
              match env 3 with
              | .ok v => (.ok v, 3)
              | .apiFailure st m => (.error (groqApiErrorMsg st m), 3)
              | .failure m3 => (.error m3, 3)
            else (.error m2, 2)
        else (.error m1, 1) := by
  cases h1 : env 1 with
  | ok v => simp [getAlignmentSuggestions, runAlignmentAttempts, h1]
  | apiFailure st m => simp [getAlignmentSuggestions, runAlignmentAttempts, h1]
  | failure m1 =>
    cases hr1 : isRetryableMessage m1 with
    | false =>
      simp [getAlignmentSuggestions, runAlignmentAttempts, h1, hr1, maxRetries]
    | true =>
      cases h2 : env 2 with
      | ok v =>
        simp [getAlignmentSuggestions, runAlignmentAttempts, h1, hr1, h2, maxRetries]
      | apiFailure st m =>
        simp [getAlignmentSuggestions, runAlignmentAttempts, h1, hr1, h2, maxRetries]
      | failure m2 =>
        cases hr2 : isRetryableMessage m2 with
        | false =>
          simp [getAlignmentSuggestions, runAlignmentAttempts, h1, hr1, h2, hr2,
            maxRetries]
        | true =>
          cases h3 : env 3 with
          | ok v =>
            simp [getAlignmentSuggestions, runAlignmentAttempts, h1, hr1, h2, hr2,
              h3, maxRetries]
          | apiFailure st m =>
            simp [getAlignmentSuggestions, runAlignmentAttempts, h1, hr1, h2, hr2,
              h3, maxRetries]
          | failure m3 =>
            simp [getAlignmentSuggestions, runAlignmentAttempts, h1, hr1, h2, hr2,
              h3, maxRetries]

/-- C9: the generation-collaborator call is attempted at most 3 times; an
earlier attempt is followed by another one only when it threw a
decode/parse failure (message matching the retry criterion) and the
attempt bound was not reached; an API error response, at any attempt it
occurs, is propagated immediately without a further attempt; and when all
three attempts fail with retryable parse errors, the last error is
propagated. -/
theorem alignment_retry_policy :
    (∀ env, 1 ≤ (getAlignmentSuggestions env).2 ∧
      (getAlignmentSuggestions env).2 ≤ maxRetries) ∧
    (∀ env j, 1 ≤ j → j < (getAlignmentSuggestions env).2 →
      retryableOutcome (env j) = true ∧ j < maxRetries) ∧
    (∀ env st m k, 1 ≤ k → k ≤ maxRetries → env k = .apiFailure st m →
      (∀ j, 1 ≤ j → j < k → retryableOutcome (env j) = true) →
      getAlignmentSuggestions env = (.error (groqApiErrorMsg st m), k)) ∧
    (∀ env m1 m2 m3,
      env 1 = .failure m1 → env 2 = .failure m2 → env 3 = .failure m3 →
      isRetryableMessage m1 = true → isRetryableMessage m2 = true →
      getAlignmentSuggestions env = (.error m3, 3)) := by
  refine ⟨?_, ?_, ?_, ?_⟩
  · intro env
    rw [getAlignment_unfold env]
    cases env 1 with
    | ok v => simp [maxRetries]
    | apiFailure st m => simp [maxRetries]
    | failure m1 =>
      dsimp only
      split_ifs with hr1
      · cases env 2 with
        | ok v => simp [maxRetries]
        | apiFailure st m => simp [maxRetries]
        | failure m2 =>
          dsimp only
          split_ifs with hr2
          · cases env 3 with
            | ok v => simp [maxRetries]
            | apiFailure st m => simp [maxRetries]
            | failure m3 => simp [maxRetries]
          · simp [maxRetries]
      · simp [maxRetries]
  · intro env j hj1 hj2
    rw [getAlignment_unfold env] at hj2
    cases h1 : env 1 with
    | ok v =>
      rw [h1] at hj2
      simp at hj2
      omega
    | apiFailure st m =>
      rw [h1] at hj2
      simp at hj2
      omega
    | failure m1 =>
      rw [h1] at hj2
      dsimp only at hj2
      by_cases hr1 : isRetryableMessage m1 = true
      · rw [if_pos hr1] at hj2
        cases h2 : env 2 with
        | ok v =>
          rw [h2] at hj2
          simp at hj2
          have : j = 1 := by omega
          subst this
          simp [retryableOutcome, h1, hr1, maxRetries]
        | apiFailure st m =>
          rw [h2] at hj2
          simp at hj2
          have : j = 1 := by omega
          subst this
          simp [retryableOutcome, h1, hr1, maxRetries]
        | failure m2 =>
          rw [h2] at hj2
          dsimp only at hj2
          by_cases hr2 : isRetryableMessage m2 = true
          · rw [if_pos hr2] at hj2
            have hj3 : j < 3 := by
              rcases hj2' : env 3 with v | ⟨st, m⟩ | m3 <;> rw [hj2'] at hj2 <;>
                simp at hj2 <;> omega
            interval_cases j
            · simp [retryableOutcome, h1, hr1, maxRetries]
            · simp [retryableOutcome, h2, hr2, maxRetries]
          · rw [if_neg hr2] at hj2
            simp at hj2
            have : j = 1 := by omega
            subst this
            simp [retryableOutcome, h1, hr1, maxRetries]
      · rw [if_neg hr1] at hj2
        simp at hj2
        omega
  · intro env st m k hk1 hk3 hk hprev
    rw [show maxRetries = 3 from rfl] at hk3
    rw [getAlignment_unfold env]
    cases h1 : env 1 with
    | ok v =>
      rcases Nat.lt_or_ge 1 k with hgt | hle
      · have := hprev 1 (le_refl 1) hgt
        rw [h1] at this
        simp [retryableOutcome] at this
      · have : k = 1 := by omega
        subst this
        rw [hk] at h1
        exact GroqCallOutcome.noConfusion h1
    | apiFailure st' m' =>
      have hke : k = 1 := by
        by_contra hne
        have hgt : 1 < k := by omega
        have := hprev 1 (le_refl 1) hgt
        rw [h1] at this
        simp [retryableOutcome] at this
      subst hke
      rw [hk] at h1
      cases h1
      rfl
    | failure m1 =>
      dsimp only
      have hk2 : 2 ≤ k := by
        by_contra hne
        have : k = 1 := by omega
        subst this
        rw [hk] at h1
        exact GroqCallOutcome.noConfusion h1
      have hr1 : isRetryableMessage m1 = true := by
        have := hprev 1 (le_refl 1) (by omega)
        rw [h1] at this
        simpa [retryableOutcome] using this
      rw [if_pos hr1]
      cases h2 : env 2 with
      | ok v =>
        rcases Nat.lt_or_ge 2 k with hgt | hle
        · have := hprev 2 (by omega) hgt
          rw [h2] at this
          simp [retryableOutcome] at this
        · have : k = 2 := by omega
          subst this
          rw [hk] at h2
          exact GroqCallOutcome.noConfusion h2
      | apiFailure st' m' =>
        have hke : k = 2 := by
          by_contra hne
          have hgt : 2 < k := by omega
          have := hprev 2 (by omega) hgt
          rw [h2] at this
          simp [retryableOutcome] at this
        subst hke
        rw [hk] at h2
        cases h2
        rfl
      | failure m2 =>
        dsimp only
        have hke : k = 3 := by
          by_contra hne
          have : k = 2 := by omega
          subst this
          rw [hk] at h2
          exact GroqCallOutcome.noConfusion h2
        subst hke
        have hr2 : isRetryableMessage m2 = true := by
          have := hprev 2 (by omega) (by omega)
          rw [h2] at this
          simpa [retryableOutcome] using this
        rw [if_pos hr2, hk]
  · intro env m1 m2 m3 h1 h2 h3 hr1 hr2
    rw [getAlignment_unfold env, h1]
    dsimp only
    rw [if_pos hr1, h2]
    dsimp only
    rw [if_pos hr2, h3]

/-- Witness for C9: on `c9ParseEnv`, where every attempt is a retryable
parse failure, the run stops after attempt 3 and propagates the last
error. -/
theorem alignment_retry_policy_witness :
    getAlignmentSuggestions c9ParseEnv =
      (.error (("Unexpected end of JSON input").data), 3) :=
  alignment_retry_policy.2.2.2 c9ParseEnv
    (("Unexpected token in JSON at position 0").data)
    (("Failed to parse content").data)
    (("Unexpected end of JSON input").data)
    rfl rfl rfl (by decide) (by decide)

set_option maxRecDepth 4000 in
/-- Counterexample to C3 as stated: `writeVersionLog` is a single direct
`writeFileSync` to the log path (no temp-file-and-rename), so a failure
during the append of `c3Entry` to an empty log can leave the file holding
only the first byte of the new serialization — a state that is neither the
complete old sequence nor the complete new sequence. -/
theorem versionlog_write_not_atomic_cex :
    c3CrashFs ∈ crashStates c3OldFs (writeVersionLogOps [c3Entry]) ∧
    fsGet logFileName c3CrashFs ≠ some (serializeVersionLog []) ∧
    fsGet logFileName c3CrashFs ≠ some (serializeVersionLog [c3Entry]) := by
  refine ⟨?_, by decide, by decide⟩
  simp only [crashStates, writeVersionLogOps, fsOpCrashStates, List.append_nil]
  refine List.mem_cons_of_mem _ ?_
  refine List.mem_map.mpr ⟨1, ?_, rfl⟩
  refine List.mem_range.mpr ?_
  decide

/-- C3 (amended): the append and patch persistence is a single direct
whole-file write of the new serialization — a completed write stores the
complete new sequence, but a failure during the write can leave the log
file holding the untouched prior content or any prefix (including the
empty truncation) of the new serialization, so the stored log is not
guaranteed to be the complete old or complete new sequence. -/
theorem versionlog_write_direct_characterization :
    (∀ (entries : List VersionLogEntry) (fs : FsState),
        fsGet logFileName (runFsOps fs (writeVersionLogOps entries)) =
          some (serializeVersionLog entries)) ∧
    (∀ (entries : List VersionLogEntry) (fs st : FsState),
        st ∈ crashStates fs (writeVersionLogOps entries) →
          fsGet logFileName st = fsGet logFileName fs ∨
          ∃ k, fsGet logFileName st = some ((serializeVersionLog entries).take k)) := by
  constructor
  · intro entries fs
    simp [runFsOps, runFsOp, writeVersionLogOps, fsGet]
  · intro entries fs st hmem
    simp only [crashStates, writeVersionLogOps, fsOpCrashStates,
      List.append_nil, List.mem_cons, List.mem_map, List.mem_range] at hmem
    rcases hmem with rfl | ⟨k, _, rfl⟩
    · exact Or.inl rfl
    · refine Or.inr ⟨k, ?_⟩
      simp [fsGet]

/-- Witness for C3 (amended): the untouched pre-write state is a crash
state of the append of `c3Entry`, and its log content is the prior
content. -/
theorem versionlog_write_direct_characterization_witness :
    fsGet logFileName c3OldFs = fsGet logFileName c3OldFs ∨
    ∃ k, fsGet logFileName c3OldFs =
      some ((serializeVersionLog [c3Entry]).take k) :=
  versionlog_write_direct_characterization.2 [c3Entry] c3OldFs c3OldFs
    (by simp [crashStates, writeVersionLogOps, fsOpCrashStates])

end ResumeAgent
